import Mathlib

/-!
Shallow embedding of the news-retrieval and opportunity-scoring pipeline in
`src/streamlit_app.py` (functions `fetch_news`, `process_article`,
`analyze_text`, `analyze_news`, `get_opportunity_level`), together with
proofs of the behavioural properties stated about it.

Modelling conventions:
* Python strings are Lean `String`s; the Python string operations the code
  uses (`in`, `lower`, `replace`) are re-implemented below by structural
  recursion on the character list, so that every definition evaluates by
  kernel reduction on concrete inputs.
* A news entry (a feedparser dict) is the structure `Article`; fields the code
  reads with `.get(k)` are `Option String` (`none` = key absent), and the
  source href, read with `.get("source", ...).get("href", "")`, is a plain
  `String` defaulting to `""`.
* `urlparse(url).netloc` is modelled by `netloc` for URLs of the common shape
  `scheme://host/...`: the text after the first `"//"` up to the next slash,
  question mark or hash, and `""` when no `"//"` occurs.
* Calls to external collaborators (the Google News search, the Together AI
  chat completion) are modelled by explicit outcome values / oracles:
  `Except Unit α` is a call that either raised (`.error`) or returned a value.
  The remote text-generation call is modelled as a function of the provided
  text; the fixed prompt templates the code wraps around that text are
  injective wrappers and play no role in any property below.
-/

/-- Infix test on character lists: `listInfix pat l` is true iff `pat` occurs
contiguously in `l`. -/
def listInfix (pat : List Char) : List Char → Bool
  | [] => pat.isEmpty
  | c :: rest => pat.isPrefixOf (c :: rest) || listInfix pat rest

/-- Model of the Python substring test `pat in s`. -/
def strContains (s pat : String) : Bool :=
  listInfix pat.data s.data

/-- ASCII lower-casing of one character, as the Python `str.lower` method acts on the
ASCII phrases this program searches for. -/
def lowerChar (c : Char) : Char :=
  if 'A' ≤ c && c ≤ 'Z' then Char.ofNat (c.toNat + 32) else c

/-- Model of the Python `str.lower` method (restricted to its ASCII action, which is all the
search phrases of this program exercise). -/
def pyLower (s : String) : String :=
  ⟨s.data.map lowerChar⟩

/-- One pass of the Python `str.replace` method: replace every (non-overlapping,
leftmost-first) occurrence of `pat` by `rep`. `fuel` bounds the recursion;
each step consumes at least one character, so `fuel = l.length` is enough. -/
def replaceAux (pat rep : List Char) : Nat → List Char → List Char
  | 0, l => l
  | _ + 1, [] => []
  | fuel + 1, c :: rest =>
    if !pat.isEmpty && pat.isPrefixOf (c :: rest) then
      rep ++ replaceAux pat rep fuel (List.drop pat.length (c :: rest))
    else
      c :: replaceAux pat rep fuel rest

/-- Model of the Python call `s.replace(pat, rep)` for a non-empty `pat`. -/
def pyReplace (s pat rep : String) : String :=
  ⟨replaceAux pat.data rep.data s.data.length s.data⟩

/-- The characters after the first `"//"` of a URL, if any. -/
def afterSlashes : List Char → Option (List Char)
  | [] => none
  | '/' :: '/' :: rest => some rest
  | _ :: rest => afterSlashes rest

/-- Model of `urlparse(url).netloc`, for URLs of the common shape `scheme://host/...`:
the text after the first `"//"` up to the next slash, question mark or hash
(empty when the URL has no `"//"`). -/
def netloc (url : String) : String :=
  match afterSlashes url.data with
  | some rest => ⟨rest.takeWhile (fun c => c ≠ '/' && c ≠ '?' && c ≠ '#')⟩
  | none => ""

/-- A news entry as `fetch_news` / `analyze_news` consume it: the keys the
code reads. `title`, `summary`, `link` are `none` when the key is absent;
`sourceHref` is `article.get("source", ...).get("href", "")`. -/
structure Article where
  title : Option String
  summary : Option String
  link : Option String
  sourceHref : String
deriving DecidableEq, Repr

/-- `parsed_uri.netloc.replace("www.", "")` (line 108): the derived
domain of the article. Note that the Python `replace` method removes every occurrence of
`"www."`, not only a leading prefix. -/
def domainOf (a : Article) : String :=
  pyReplace (netloc a.sourceHref) "www." ""

/-- Whether an article passes the allow-list test of line 109:
`any(d in domain for d in allowed_domains)`. -/
def domainAllowed (allowedDomains : List String) (a : Article) : Bool :=
  allowedDomains.any (fun d => strContains (domainOf a) d)

/-- The per-batch domain filter of `fetch_news` (lines 102-115): with a
truthy (non-empty) allow-list, keep the articles whose derived domain
contains an allow-listed domain as a substring; if that keeps nothing and the
batch is non-empty, fall back to the first article of the batch; with an empty or
unset allow-list, pass everything through. -/
def filterArticles (entries : List Article) (allowedDomains : List String) :
    List Article :=
  if allowedDomains.isEmpty then entries
  else
    let kept := entries.filter (domainAllowed allowedDomains)
    if kept.isEmpty then
      match entries with
      | [] => []
      | e :: _ => [e]
    else kept

/-- The domain derivation as the claim states it: host with only a *leading*
`"www."` prefix stripped (the wording of the spec; the code differs — it removes
every occurrence). -/
def claimedDomainOf (a : Article) : String :=
  let h := netloc a.sourceHref
  if "www.".data.isPrefixOf h.data then ⟨h.data.drop 4⟩ else h

/-- The domain filter exactly as the spec describes it, with the leading-only
`"www."` strip; compared with `filterArticles` to settle the claim. -/
def filterArticlesClaimed (entries : List Article)
    (allowedDomains : List String) : List Article :=
  if allowedDomains.isEmpty then entries
  else
    let kept := entries.filter
      (fun a => allowedDomains.any (fun d => strContains (claimedDomainOf a) d))
    if kept.isEmpty then
      match entries with
      | [] => []
      | e :: _ => [e]
    else kept

/-- Embedding of `get_opportunity_level` (lines 181-192): case-insensitive substring
search for the four phrases, in the order of the source, `"Unknown Opportunity"`
when none occurs. -/
def get_opportunity_level (summary_text : String) : String :=
  let lower := pyLower summary_text
  if strContains lower "low opportunity" then "Low Opportunity"
  else if strContains lower "medium opportunity" then "Medium Opportunity"
  else if strContains lower "high opportunity" then "High Opportunity"
  else if strContains lower "no upsell opportunity indicated" then
    "No Upsell Opportunity Indicated"
  else "Unknown Opportunity"

/-- One group `queries[i:i+3]` after another (lines 94-95): the query list
split into successive chunks of three. -/
def chunk3 : List String → List (List String)
  | [] => []
  | [a] => [[a]]
  | [a, b] => [[a, b]]
  | a :: b :: c :: rest => [a, b, c] :: chunk3 rest

/-- Model of the Python call `" OR ".join(group_queries)` (line 96). -/
def joinOr : List String → String
  | [] => ""
  | [q] => q
  | q :: rest => q ++ " OR " ++ joinOr rest

/-- The combined queries `fetch_news` sends to the news source (lines 89-96):
`queries` defaults to `[company_name]` when absent (`None`), then is processed
in groups of 3, each group joined with `" OR "`. -/
def buildQueries (companyName : String) (queries : Option (List String)) :
    List String :=
  let qs := match queries with
    | none => [companyName]
    | some qs => qs
  (chunk3 qs).map joinOr

/-- Outcome of one `gn.search` call: `.error` = the call raised; `.ok none` =
a falsy result or one without an "entries" key (the guard of line 102 fails);
`.ok (some entries)` = a result with an entry list. -/
abbrev SearchOutcome := Except Unit (Option (List Article))

/-- Whether a search outcome is a raised exception. -/
def isErr : SearchOutcome → Bool
  | .error _ => true
  | .ok _ => false

/-- The batch loop of `fetch_news` (lines 92-123) over the per-batch search
outcomes: an exception anywhere makes the whole call return `None` (the
`except` at line 121 returns from the function, discarding `results`); a
batch without entries is skipped with a warning; otherwise the batch is
domain-filtered and its first `max_articles` kept articles are appended. -/
def fetchBatches :
    List SearchOutcome → Nat → List String → Option (List Article)
  | [], _, _ => some []
  | o :: rest, m, allowed =>
    match o with
    | .error _ => none
    | .ok none => fetchBatches rest m allowed
    | .ok (some entries) =>
      match fetchBatches rest m allowed with
      | none => none
      | some tail => some ((filterArticles entries allowed).take m ++ tail)

/-- Embedding of `fetch_news` (lines 81-125), with the news source abstracted as `adapter`
from combined query strings to search outcomes: build the combined queries,
run the batch loop, and truncate the final result to `max_articles`
(line 125). -/
def fetch_news (adapter : String → SearchOutcome) (company : String)
    (queries : Option (List String)) (maxArticles : Nat)
    (allowedDomains : List String) : Option (List Article) :=
  (fetchBatches ((buildQueries company queries).map adapter) maxArticles
    allowedDomains).map (List.take maxArticles)

/-- Model of the Python `strip` method (for the whitespace characters this program can
produce). -/
def pyStrip (s : String) : String :=
  let wsp : Char → Bool := fun c => c = ' ' || c = '\n' || c = '\t' || c = '\r'
  ⟨((s.data.dropWhile wsp).reverse.dropWhile wsp).reverse⟩

/-- A prompt sent to the text-generation service, identified by its payload:
`.individual text` is `PROMPT_INDIVIDUAL_ANALYSIS` with `provided_text`
replaced by the article text (line 154), `.combined body` is
`PROMPT_COMBINED_ANALYSIS` with the stripped concatenation of the per-article
analyses inserted (lines 173-176, where the template passed to `analyze_text`
is the identity `"{provided_text}"`). The fixed template text around the
payload is an injective wrapper and is not itself inspected anywhere, so the
payload identifies the prompt. -/
inductive Prompt where
  | individual (text : String)
  | combined (body : String)
deriving DecidableEq, Repr

/-- Embedding of `analyze_text` (lines 64-78) as a function of the outcome of its remote
chat-completion call: a successful call returns the (truthy) content, an
empty content falls back to the f-string `"Unexpected response: "`, and a
raised exception is caught and replaced by the sentinel failure string — the
function never propagates the exception (its Lean type is total). -/
def analyze_text (remote : Except Unit String) : String :=
  match remote with
  | .ok output => if output = "" then "Unexpected response: " else output
  | .error _ => "Analysis failed due to AI service error."

/-- Embedding of `process_article` (lines 128-130): `summary or title or ""` — the summary when truthy, else the title when
truthy, else the empty string. -/
def process_article (a : Article) : String :=
  let s := a.summary.getD ""
  if s ≠ "" then s
  else
    let t := a.title.getD ""
    if t ≠ "" then t else ""

/-- One element of `individual_analyses_list` (lines 156-168). -/
structure ArticleAnalysis where
  title : String
  url : String
  analysis : String
deriving DecidableEq, Repr

/-- The dict returned by `analyze_news` (lines 142 and 178). -/
structure Report where
  individual_analyses : List ArticleAnalysis
  overall_summary : String
deriving DecidableEq, Repr

/-- The canned classification for an article with no usable text
(line 163). -/
def noTextAnalysis : String :=
  "No Upsell Opportunity Indicated (No text in article summary/title)."

/-- The per-article loop of `analyze_news` (lines 147-169), starting at loop
index `i`, with the text-generation service abstracted as `oracle`. Returns
the analysis entries, the accumulated `combined_analysis_text_for_model`,
and the list of prompts actually sent to the remote service. -/
def analyzeArticles (oracle : Prompt → Except Unit String) :
    Nat → List Article → List ArticleAnalysis × String × List Prompt
  | _, [] => ([], "", [])
  | i, a :: rest =>
    let text := process_article a
    let entryTitle := a.title.getD ("Article " ++ toString (i + 1))
    let url := a.link.getD "No URL available"
    let analysis :=
      if text = "" then noTextAnalysis
      else analyze_text (oracle (.individual text))
    let calls : List Prompt := if text = "" then [] else [.individual text]
    let block :=
      "Article " ++ toString (i + 1) ++ " Analysis:\n" ++ analysis ++ "\n\n"
    let tail := analyzeArticles oracle (i + 1) rest
    ({ title := entryTitle, url := url, analysis := analysis } :: tail.1,
      block ++ tail.2.1, calls ++ tail.2.2)

/-- What one run of `analyze_news` produced: its returned report, plus the
prompts it sent to the remote service, split into the per-article calls and
the aggregate call. -/
structure AnalyzeOutcome where
  report : Report
  articleCalls : List Prompt
  aggregateCalls : List Prompt
deriving DecidableEq, Repr

/-- The no-news report of line 142. -/
def emptyReport : Report :=
  ⟨[], "No relevant news articles found for analysis."⟩

/-- Embedding of `analyze_news` (lines 133-178) as a function of the fetch result and the
text-generation oracle: a falsy fetch result (`None` or the empty list) short
circuits to `emptyReport` (lines 141-142); otherwise every article is
analyzed, and the aggregate call of lines 171-176 is made — the
default `"Overall No Upsell Opportunity Indicated."` is kept only when the
per-article list is empty, exactly as the `if` at line 172 has it. -/
def analyze_news (oracle : Prompt → Except Unit String)
    (fetched : Option (List Article)) : AnalyzeOutcome :=
  match fetched with
  | none => ⟨emptyReport, [], []⟩
  | some [] => ⟨emptyReport, [], []⟩
  | some (a :: rest) =>
    let run := analyzeArticles oracle 0 (a :: rest)
    if run.1.isEmpty then
      ⟨⟨run.1, "Overall No Upsell Opportunity Indicated."⟩, run.2.2, []⟩
    else
      let aggPrompt := Prompt.combined (pyStrip run.2.1)
      ⟨⟨run.1, analyze_text (oracle aggPrompt)⟩, run.2.2, [aggPrompt]⟩

/-- Modelled from the spec: the Result Cache. The source delegates caching to
an external framework decorator (`@st.cache_data(ttl=3600)`, lines 64 and
81), whose implementation is not part of this repository, so the cache is
modelled from spec section 4.4: the cache state maps a key (operation
identity plus argument tuple, here one type `α`) to a value and its insertion
timestamp; newest entries shadow older ones. -/
def lookupEntry {α β : Type} [DecidableEq α] :
    List (α × β × Nat) → α → Option (β × Nat)
  | [], _ => none
  | (k, v, t) :: rest, key => if k = key then some (v, t) else lookupEntry rest key

/-- Modelled from the spec: `memoize(operationKey, args, ttlSeconds, compute)`
of spec section 4.4. Given the time-to-live, the underlying computation, the
current cache state, the current time and the key: if a live (non-expired)
entry exists, return it without invoking `compute`; otherwise invoke
`compute`, store the result with the current timestamp, and return it. An
entry inserted at time `t` is live at time `now` iff `now < t + ttl`. The
returned Boolean records whether `compute` was invoked. -/
def memoize {α β : Type} [DecidableEq α] (ttl : Nat) (compute : α → β)
    (cache : List (α × β × Nat)) (now : Nat) (key : α) :
    β × List (α × β × Nat) × Bool :=
  match lookupEntry cache key with
  | some (v, t) =>
    if now < t + ttl then (v, cache, false)
    else (compute key, (key, compute key, now) :: cache, true)
  | none => (compute key, (key, compute key, now) :: cache, true)

/-! Concrete fixtures used by the witnesses and counterexamples below. -/

/-- An article from an allow-listed business-news domain. -/
def artMint : Article := ⟨some "t1", some "s1", some "l1", "https://livemint.com/x"⟩

/-- An article from a domain on no allow-list. -/
def artOther : Article := ⟨some "t2", some "s2", some "l2", "https://other.com/b"⟩

/-- An article whose source host contains `"www."` twice: only removing every
occurrence (what the code does) yields `"xyz.com"`; stripping a leading
prefix (what the spec says) yields `"xyz.www.com"`. -/
def artWww : Article := ⟨some "t3", some "s3", some "l3", "https://www.xyz.www.com/a"⟩

/-- An article with an empty summary and no title: `process_article` yields
`""`. -/
def artBlank : Article := ⟨none, some "", some "l4", "https://livemint.com/e"⟩

/-- A news-source adapter whose search succeeds (finding `artMint`) for the
combined query `"A OR B OR C"` and raises for every other query. -/
def adapterErrB : String → SearchOutcome := fun q =>
  if q = "A OR B OR C" then .ok (some [artMint]) else .error ()

/-- The kept (domain-filtered) articles of one search outcome. -/
def keptOf (allowed : List String) : SearchOutcome → List Article
  | .ok (some entries) => filterArticles entries allowed
  | _ => []

/-- A news-source adapter whose search always succeeds with the same two
articles. -/
def adapterOk : String → SearchOutcome := fun _ => .ok (some [artMint, artOther])

/-- A text-generation oracle that always answers `"Medium Opportunity"`. -/
def oracleOk : Prompt → Except Unit String := fun _ => .ok "Medium Opportunity"

/-- A text-generation oracle that raises exactly on the per-article prompt
for the text `"s2"` (the summary of `artOther`) and otherwise answers
`"Medium Opportunity"`. -/
def oracleErrS2 : Prompt → Except Unit String := fun p =>
  if p = .individual "s2" then .error () else .ok "Medium Opportunity"

example : get_opportunity_level "Overall High Opportunity," = "High Opportunity" := by decide
example : get_opportunity_level "nothing here" = "Unknown Opportunity" := by decide
example : get_opportunity_level "LOW opportunity and High Opportunity" = "Low Opportunity" := by decide
example : domainOf ⟨none, none, none, "https://www.xyz.www.com/a"⟩ = "xyz.com" := by decide
example : claimedDomainOf ⟨none, none, none, "https://www.xyz.www.com/a"⟩ = "xyz.www.com" := by decide

/-! Helper lemmas. -/

/-- A batch loop result is `none` exactly when some search outcome raised. -/
theorem fetchBatches_none_iff (m : Nat) (d : List String) :
    (outs : List SearchOutcome) →
      (fetchBatches outs m d = none ↔ outs.any isErr = true)
  | [] => by simp [fetchBatches]
  | .error e :: rest => by simp [fetchBatches, isErr]
  | .ok none :: rest => by
    simp [fetchBatches, isErr, fetchBatches_none_iff m d rest]
  | .ok (some entries) :: rest => by
    have ih := fetchBatches_none_iff m d rest
    cases h : fetchBatches rest m d with
    | none =>
      simp only [fetchBatches, h, List.any_cons, isErr, Bool.false_or]
      simpa using ih.mp h
    | some tail =>
      simp only [fetchBatches, h, List.any_cons, isErr, Bool.false_or]
      constructor
      · intro hc; cases hc
      · intro hc; rw [ih.mpr hc] at h; cases h

/-- When no search outcome raised, the batch loop returns the concatenation,
in batch order, of each batch's kept articles truncated to `m`. -/
theorem fetchBatches_of_ok (m : Nat) (d : List String) :
    (outs : List SearchOutcome) → (∀ o ∈ outs, isErr o = false) →
      fetchBatches outs m d =
        some ((outs.map (fun o => (keptOf d o).take m)).flatten)
  | [], _ => by simp [fetchBatches]
  | .error e :: rest, h => by
    have := h _ (List.mem_cons_self _ _)
    simp [isErr] at this
  | .ok none :: rest, h => by
    have ih := fetchBatches_of_ok m d rest
      (fun o ho => h o (List.mem_cons_of_mem _ ho))
    simp [fetchBatches, keptOf, ih]
  | .ok (some entries) :: rest, h => by
    have ih := fetchBatches_of_ok m d rest
      (fun o ho => h o (List.mem_cons_of_mem _ ho))
    simp [fetchBatches, keptOf, ih]

/-- Truncating each block to `C` before joining does not change the first
`D ≤ C` elements of the join. -/
theorem take_join_take {α : Type} (C : Nat) :
    (ls : List (List α)) → (D : Nat) → D ≤ C →
      ((ls.map (fun l => l.take C)).flatten).take D = (ls.flatten).take D
  | [], D, _ => by simp
  | l :: ls, D, hDC => by
    simp only [List.map_cons, List.flatten_cons]
    rw [List.take_append_eq_append_take, List.take_append_eq_append_take]
    have h1 : (l.take C).take D = l.take D := by
      rw [List.take_take, Nat.min_eq_left hDC]
    have hlen : (l.take C).length = min C l.length := by
      simp [List.length_take]
    rcases le_or_lt D l.length with hD | hD
    · have hz1 : D - (l.take C).length = 0 := by
        rw [hlen]; omega
      have hz2 : D - l.length = 0 := by omega
      rw [hz1, hz2]
      simp [h1]
    · have hlt : (l.take C).length = l.length := by
        rw [hlen]; omega
      rw [h1, hlt]
      have ih := take_join_take C ls (D - l.length) (by omega)
      rw [ih]

/-- The per-article loop yields one analysis entry per article. -/
theorem analyzeArticles_length (oracle : Prompt → Except Unit String) :
    (i : Nat) → (arts : List Article) →
      (analyzeArticles oracle i arts).1.length = arts.length
  | _, [] => rfl
  | i, a :: rest => by
    simp [analyzeArticles, analyzeArticles_length oracle (i + 1) rest]

/-- The analysis text of the entry at position `k` of the per-article loop:
the canned no-text result for a text-less article, and otherwise
`analyze_text` of the oracle answer for its text. -/
theorem analyzeArticles_analysis (oracle : Prompt → Except Unit String) :
    (i k : Nat) → (arts : List Article) →
      ((analyzeArticles oracle i arts).1[k]?).map (fun x => x.analysis) =
        (arts[k]?).map (fun a =>
          if process_article a = "" then noTextAnalysis
          else analyze_text (oracle (.individual (process_article a))))
  | _, _, [] => by simp [analyzeArticles]
  | i, 0, a :: rest => by simp [analyzeArticles]
  | i, k + 1, a :: rest => by
    simpa [analyzeArticles] using
      analyzeArticles_analysis oracle (i + 1) k rest

/-- The prompts the per-article loop sends to the remote service: exactly one
per article with a non-empty text, in article order, and none for the
articles without text. -/
theorem analyzeArticles_calls (oracle : Prompt → Except Unit String) :
    (i : Nat) → (arts : List Article) →
      (analyzeArticles oracle i arts).2.2 =
        (arts.filter (fun a => !(process_article a == ""))).map
          (fun a => Prompt.individual (process_article a))
  | _, [] => rfl
  | i, a :: rest => by
    by_cases h : process_article a = "" <;>
      simp [analyzeArticles, h, analyzeArticles_calls oracle (i + 1) rest]

/-- On a non-empty article list, `analyze_news` takes the aggregate branch of
line 1. -/
theorem analyze_news_cons (oracle : Prompt → Except Unit String)
    (a : Article) (rest : List Article) :
    analyze_news oracle (some (a :: rest)) =
      ⟨⟨(analyzeArticles oracle 0 (a :: rest)).1,
          analyze_text (oracle (.combined
            (pyStrip (analyzeArticles oracle 0 (a :: rest)).2.1)))⟩,
        (analyzeArticles oracle 0 (a :: rest)).2.2,
        [.combined (pyStrip (analyzeArticles oracle 0 (a :: rest)).2.1)]⟩ := by
  have h : (analyzeArticles oracle 0 (a :: rest)).1.isEmpty = false := by
    simp [analyzeArticles]
  simp [analyze_news, h]

/-- The individual analyses returned by `analyze_news` are those of the
per-article loop (for an empty list, both sides are empty). -/
theorem analyze_news_entries (oracle : Prompt → Except Unit String) :
    (arts : List Article) →
      (analyze_news oracle (some arts)).report.individual_analyses =
        (analyzeArticles oracle 0 arts).1
  | [] => by simp [analyze_news, analyzeArticles, emptyReport]
  | a :: rest => by rw [analyze_news_cons]

/-- The per-article remote calls made by `analyze_news` are those of the
per-article loop. -/
theorem analyze_news_articleCalls (oracle : Prompt → Except Unit String) :
    (arts : List Article) →
      (analyze_news oracle (some arts)).articleCalls =
        (analyzeArticles oracle 0 arts).2.2
  | [] => by simp [analyze_news, analyzeArticles]
  | a :: rest => by rw [analyze_news_cons]

/-- The number of chunks is the length divided by three, rounded up. -/
theorem chunk3_length : (l : List String) →
    (chunk3 l).length = (l.length + 2) / 3
  | [] => by simp [chunk3]
  | [a] => by simp [chunk3]
  | [a, b] => by simp [chunk3]
  | a :: b :: c :: rest => by
    have ih := chunk3_length rest
    simp [chunk3, ih]
    omega

/-- Chunking loses and reorders nothing. -/
theorem chunk3_flatten : (l : List String) → (chunk3 l).flatten = l
  | [] => by simp [chunk3]
  | [a] => by simp [chunk3]
  | [a, b] => by simp [chunk3]
  | a :: b :: c :: rest => by
    simp [chunk3, chunk3_flatten rest]

/-- Every chunk holds between one and three queries. -/
theorem chunk3_chunk_length : (l : List String) → ∀ ch ∈ chunk3 l,
    0 < ch.length ∧ ch.length ≤ 3
  | [] => by simp [chunk3]
  | [a] => by simp [chunk3]
  | [a, b] => by simp [chunk3]
  | a :: b :: c :: rest => by
    intro ch hch
    rcases List.mem_cons.mp hch with h | h
    · subst h; simp
    · exact chunk3_chunk_length rest ch h

/-- The five values `get_opportunity_level` can return. -/
theorem level_total (s : String) :
    get_opportunity_level s = "Low Opportunity" ∨
    get_opportunity_level s = "Medium Opportunity" ∨
    get_opportunity_level s = "High Opportunity" ∨
    get_opportunity_level s = "No Upsell Opportunity Indicated" ∨
    get_opportunity_level s = "Unknown Opportunity" := by
  dsimp only [get_opportunity_level]
  split_ifs <;> tauto

/-! Claim theorems. -/

/-- C1, amended. The claim says a failing batch is skipped and the other
batches of the same company still contribute results. The code does the
opposite: the `try` of line 92 wraps the whole batch loop and its `except`
returns `None`, so `fetch_news` returns `None` exactly when some batch's
search call raises — earlier batches' results are discarded and later
batches never run (the failure is still reported to the operator via the
UI error call, which this embedding does not model). -/
theorem C1_fetch_aborts_on_batch_error (adapter : String → SearchOutcome)
    (company : String) (queries : Option (List String)) (m : Nat)
    (allowed : List String) :
    fetch_news adapter company queries m allowed = none ↔
      ((buildQueries company queries).map adapter).any isErr = true := by
  unfold fetch_news
  rw [Option.map_eq_none']
  exact fetchBatches_none_iff m allowed _

/-- C1 counterexample: with two batches, `"A OR B OR C"` succeeding with one
article and `"D"` raising, `fetch_news` returns `None` — the article
gathered from the succeeding batch is not returned, contrary to the claim
(alone, the succeeding batch does yield that article). -/
theorem C1_counterexample :
    fetch_news adapterErrB "c" (some ["A", "B", "C", "D"]) 10 [] = none ∧
    fetch_news adapterErrB "c" (some ["A", "B", "C"]) 10 [] =
      some [artMint] := by decide

/-- C1 witness: the amended theorem applied to a concrete failing run. -/
theorem C1_witness :
    fetch_news adapterErrB "c" (some ["A", "B", "C", "D"]) 10 [] = none :=
  (C1_fetch_aborts_on_batch_error adapterErrB "c" (some ["A", "B", "C", "D"])
    10 []).mpr (by decide)

/-- C2, amended: the domain filter passes everything through when the
allow-list is empty (or unset — `None` is as falsy as `[]` at line 104);
otherwise it keeps exactly the articles whose derived domain contains an
allow-listed domain as a substring, where the derived domain is the source
host with **every** occurrence of `"www."` removed (not just a leading
prefix, which is what the claim says); and when a non-empty batch has no
match, the output is exactly the first article of the batch. -/
theorem C2_domain_filter (entries : List Article) (allowed : List String) :
    (allowed = [] → filterArticles entries allowed = entries) ∧
    (allowed ≠ [] → entries.any (domainAllowed allowed) = true →
      filterArticles entries allowed = entries.filter (domainAllowed allowed)) ∧
    (allowed ≠ [] → entries ≠ [] →
      entries.any (domainAllowed allowed) = false →
      filterArticles entries allowed = entries.take 1) := by
  refine ⟨?_, ?_, ?_⟩
  · intro h; subst h; simp [filterArticles]
  · intro hne hany
    have he : allowed.isEmpty = false := by
      cases allowed with
      | nil => exact absurd rfl hne
      | cons x xs => rfl
    have hk : (entries.filter (domainAllowed allowed)).isEmpty = false := by
      rcases List.any_eq_true.mp hany with ⟨a, ha, hpa⟩
      have hm : a ∈ entries.filter (domainAllowed allowed) :=
        List.mem_filter.mpr ⟨ha, hpa⟩
      cases hfil : entries.filter (domainAllowed allowed) with
      | nil => rw [hfil] at hm; cases hm
      | cons x xs => rfl
    simp [filterArticles, he, hk]
  · intro hne hent hanyf
    have he : allowed.isEmpty = false := by
      cases allowed with
      | nil => exact absurd rfl hne
      | cons x xs => rfl
    have hk : entries.filter (domainAllowed allowed) = [] := by
      rw [List.filter_eq_nil_iff]
      intro a ha
      exact (List.any_eq_false.mp hanyf) a ha
    cases entries with
    | nil => exact absurd rfl hent
    | cons e es => simp [filterArticles, he, hk]

/-- C2 counterexample: `artWww` has source host `"www.xyz.www.com"`. The
code removes every `"www."`, deriving `"xyz.com"`, which matches the
allow-list `["xyz.com"]`, so the filter keeps `artWww`. Under the claimed
leading-prefix strip the derived domain would be `"xyz.www.com"`, nothing
would match, and the claimed output would be the fallback `[artOther]` —
a different article list. -/
theorem C2_counterexample :
    filterArticles [artOther, artWww] ["xyz.com"] = [artWww] ∧
    filterArticlesClaimed [artOther, artWww] ["xyz.com"] = [artOther] ∧
    artWww ≠ artOther := by decide

/-- C2 witness: the amended theorem applied on concrete batches: empty
allow-list passes through, a matching batch is filtered, a matchless batch
falls back to its first article. -/
theorem C2_witness :
    filterArticles [artOther] [] = [artOther] ∧
    filterArticles [artWww, artOther] ["xyz.com"] = [artWww] ∧
    filterArticles [artOther] ["xyz.com"] = [artOther] := by
  refine ⟨(C2_domain_filter [artOther] []).1 rfl, ?_, ?_⟩
  · have h := (C2_domain_filter [artWww, artOther] ["xyz.com"]).2.1
      (by decide) (by decide)
    rw [h]; decide
  · have h := (C2_domain_filter [artOther] ["xyz.com"]).2.2
      (by decide) (by decide) (by decide)
    rw [h]; decide

/-- C3, confirmed: `get_opportunity_level` is total (every input maps to one
of the five enumerated level strings), decides by case-insensitive substring
search with the precedence order low, medium, high, no-upsell (the first
match in that order wins, `"Unknown Opportunity"` when none occurs), and is
idempotent. -/
theorem C3_level_extraction (s : String) :
    (get_opportunity_level s = "Low Opportunity" ∨
      get_opportunity_level s = "Medium Opportunity" ∨
      get_opportunity_level s = "High Opportunity" ∨
      get_opportunity_level s = "No Upsell Opportunity Indicated" ∨
      get_opportunity_level s = "Unknown Opportunity") ∧
    get_opportunity_level (get_opportunity_level s) =
      get_opportunity_level s ∧
    (strContains (pyLower s) "low opportunity" = true →
      get_opportunity_level s = "Low Opportunity") ∧
    (strContains (pyLower s) "low opportunity" = false →
      strContains (pyLower s) "medium opportunity" = true →
      get_opportunity_level s = "Medium Opportunity") ∧
    (strContains (pyLower s) "low opportunity" = false →
      strContains (pyLower s) "medium opportunity" = false →
      strContains (pyLower s) "high opportunity" = true →
      get_opportunity_level s = "High Opportunity") ∧
    (strContains (pyLower s) "low opportunity" = false →
      strContains (pyLower s) "medium opportunity" = false →
      strContains (pyLower s) "high opportunity" = false →
      strContains (pyLower s) "no upsell opportunity indicated" = true →
      get_opportunity_level s = "No Upsell Opportunity Indicated") ∧
    (strContains (pyLower s) "low opportunity" = false →
      strContains (pyLower s) "medium opportunity" = false →
      strContains (pyLower s) "high opportunity" = false →
      strContains (pyLower s) "no upsell opportunity indicated" = false →
      get_opportunity_level s = "Unknown Opportunity") := by
  refine ⟨level_total s, ?_, ?_, ?_, ?_, ?_, ?_⟩
  · rcases level_total s with h | h | h | h | h <;> rw [h] <;> decide
  · intro h1; simp [get_opportunity_level, h1]
  · intro h1 h2; simp [get_opportunity_level, h1, h2]
  · intro h1 h2 h3; simp [get_opportunity_level, h1, h2, h3]
  · intro h1 h2 h3 h4; simp [get_opportunity_level, h1, h2, h3, h4]
  · intro h1 h2 h3 h4; simp [get_opportunity_level, h1, h2, h3, h4]

/-- C3 witness: the precedence conjuncts applied to a concrete string that
contains the medium phrase but not the low phrase. -/
theorem C3_witness :
    get_opportunity_level "some Medium Opportunity news" =
      "Medium Opportunity" :=
  (C3_level_extraction "some Medium Opportunity news").2.2.2.1
    (by decide) (by decide)

/-- C4, amended. The batch count is `⌈L/3⌉` for every list of length `L`
(including `L = 0`, where `⌈0/3⌉ = 0`: an **empty** query list produces zero
batches, not a single company-name query — the `queries is None` default at
lines 89-90 fires only when the list is **absent**, and only then is the
single query the company name alone); each batch is one to three query
phrases joined with `" OR "` in the original order. -/
theorem C4_query_batcher (company : String) (qs : List String) :
    (buildQueries company (some qs)).length = (qs.length + 2) / 3 ∧
    buildQueries company none = [company] ∧
    (chunk3 qs).flatten = qs ∧
    (∀ ch ∈ chunk3 qs, 0 < ch.length ∧ ch.length ≤ 3) := by
  refine ⟨?_, rfl, chunk3_flatten qs, chunk3_chunk_length qs⟩
  simp [buildQueries, chunk3_length qs]

/-- C4 counterexample: for the empty (but present) query list the code
produces zero batches — not, as the claim says, a single query equal to the
company name. -/
theorem C4_counterexample :
    buildQueries "Acme" (some []) = [] ∧
    ([] : List String) ≠ ["Acme"] := by decide

/-- C4 witness: the amended theorem applied to a four-element query list:
two batches, the first chunk holding three queries. -/
theorem C4_witness :
    (buildQueries "Acme" (some ["a", "b", "c", "d"])).length = 2 ∧
    (0 < (["a", "b", "c"] : List String).length ∧
      (["a", "b", "c"] : List String).length ≤ 3) := by
  constructor
  · have h := (C4_query_batcher "Acme" ["a", "b", "c", "d"]).1
    simpa using h
  · exact (C4_query_batcher "Acme" ["a", "b", "c", "d"]).2.2.2
      ["a", "b", "c"] (by decide)

/-- C5, confirmed: when every batch search succeeds, `fetch_news` returns
the concatenation, in batch order and within-batch order, of the kept
(domain-filtered) articles, truncated to `max_articles` — the per-batch
truncation of line 117 followed by the final truncation of line 125 is
exactly one global truncation of the concatenated kept articles — and the
returned length is the minimum of the total number of kept articles and the
cap. -/
theorem C5_cap_limiter (adapter : String → SearchOutcome) (company : String)
    (queries : Option (List String)) (m : Nat) (allowed : List String)
    (h : ∀ o ∈ (buildQueries company queries).map adapter, isErr o = false) :
    fetch_news adapter company queries m allowed =
      some (((((buildQueries company queries).map adapter).map
        (keptOf allowed)).flatten).take m) ∧
    (((((buildQueries company queries).map adapter).map
        (keptOf allowed)).flatten).take m).length =
      min ((((buildQueries company queries).map adapter).map
        (keptOf allowed)).flatten).length m := by
  constructor
  · unfold fetch_news
    rw [fetchBatches_of_ok m allowed _ h]
    have hmaps : ((buildQueries company queries).map adapter).map
        (fun o => (keptOf allowed o).take m) =
        (((buildQueries company queries).map adapter).map
          (keptOf allowed)).map (fun l => l.take m) := by
      simp only [List.map_map]; rfl
    rw [Option.map_some', hmaps, take_join_take m _ m (le_refl m)]
  · rw [List.length_take, Nat.min_comm]

/-- C5 witness: the theorem applied to an always-succeeding adapter, one
batch of two articles and cap 1. -/
theorem C5_witness :
    fetch_news adapterOk "Acme" none 1 [] = some [artMint] ∧
    ([artMint, artOther].take 1).length = 1 := by
  have h := C5_cap_limiter adapterOk "Acme" none 1 []
    (by intro o ho; simp [buildQueries, chunk3, joinOr, adapterOk] at ho
        rw [ho]; rfl)
  constructor
  · have h1 := h.1
    rw [h1]; decide
  · decide

/-- C6, confirmed: a raised exception in the remote chat-completion call
never propagates out of `analyze_text` — it is replaced by the sentinel
failure string — and inside `analyze_news` an article whose call raises
gets the sentinel as its analysis while every article still yields exactly
one entry and the aggregate call is still made (so the aggregate receives
one block per article, the failed one holding the sentinel text). -/
theorem C6_classifier_error_contained (oracle : Prompt → Except Unit String)
    (arts : List Article) (i : Nat) (a : Article) :
    analyze_text (Except.error ()) =
      "Analysis failed due to AI service error." ∧
    (analyze_news oracle (some arts)).report.individual_analyses.length =
      arts.length ∧
    (arts ≠ [] → (analyze_news oracle (some arts)).aggregateCalls.length = 1) ∧
    (arts[i]? = some a → process_article a ≠ "" →
      oracle (.individual (process_article a)) = .error () →
      ((analyze_news oracle (some arts)).report.individual_analyses[i]?).map
        (fun x => x.analysis) =
        some "Analysis failed due to AI service error.") := by
  refine ⟨rfl, ?_, ?_, ?_⟩
  · rw [analyze_news_entries, analyzeArticles_length]
  · intro hne
    cases arts with
    | nil => exact absurd rfl hne
    | cons b rest => rw [analyze_news_cons]; rfl
  · intro hget hne herr
    rw [analyze_news_entries, analyzeArticles_analysis, hget]
    simp [hne, herr, analyze_text]

/-- C6 witness: among three articles the middle one's call raises; its
analysis is the sentinel string. -/
theorem C6_witness :
    ((analyze_news oracleErrS2
        (some [artMint, artOther, artWww])).report.individual_analyses[1]?).map
      (fun x => x.analysis) =
      some "Analysis failed due to AI service error." :=
  (C6_classifier_error_contained oracleErrS2 [artMint, artOther, artWww] 1
    artOther).2.2.2 (by decide) (by decide) (by rfl)

/-- C7, confirmed: the prompts `analyze_news` sends for individual articles
are exactly one per article with non-empty processed text, so an article
whose summary and title are both empty triggers no remote call, and its
stored analysis is the canned no-text sentinel. -/
theorem C7_no_text_skips_remote_call (oracle : Prompt → Except Unit String)
    (arts : List Article) (i : Nat) (a : Article) :
    (analyze_news oracle (some arts)).articleCalls =
      (arts.filter (fun x => !(process_article x == ""))).map
        (fun x => Prompt.individual (process_article x)) ∧
    (arts[i]? = some a → process_article a = "" →
      ((analyze_news oracle (some arts)).report.individual_analyses[i]?).map
        (fun x => x.analysis) = some noTextAnalysis) := by
  constructor
  · rw [analyze_news_articleCalls, analyzeArticles_calls]
  · intro hget he
    rw [analyze_news_entries, analyzeArticles_analysis, hget]
    simp [he]

/-- C7 witness: a single article with empty summary and absent title: no
per-article prompt is sent and its analysis is the canned sentinel. -/
theorem C7_witness :
    (analyze_news oracleOk (some [artBlank])).articleCalls = [] ∧
    ((analyze_news oracleOk
        (some [artBlank])).report.individual_analyses[0]?).map
      (fun x => x.analysis) = some noTextAnalysis := by
  constructor
  · have h := (C7_no_text_skips_remote_call oracleOk [artBlank] 0 artBlank).1
    rw [h]; decide
  · exact (C7_no_text_skips_remote_call oracleOk [artBlank] 0 artBlank).2
      (by decide) (by decide)

/-- C8, amended. With zero per-article results the aggregate classifier
indeed makes no remote call, but the overall verdict is
`"No relevant news articles found for analysis."`, not
`"Overall No Upsell Opportunity Indicated."`: zero per-article results can
only arise from a falsy fetch result, which the guard of lines 141-142
short-circuits to `emptyReport` before the aggregate stage — the
`"Overall No Upsell Opportunity Indicated."` default of line 171 survives
only if the per-article list is empty, which never happens past that
guard. -/
theorem C8_zero_results (oracle : Prompt → Except Unit String)
    (arts : List Article) :
    analyze_news oracle (some []) = ⟨emptyReport, [], []⟩ ∧
    analyze_news oracle none = ⟨emptyReport, [], []⟩ ∧
    ((analyze_news oracle (some arts)).report.individual_analyses = [] →
      (analyze_news oracle (some arts)).aggregateCalls = [] ∧
      (analyze_news oracle (some arts)).report.overall_summary =
        "No relevant news articles found for analysis.") := by
  refine ⟨rfl, rfl, ?_⟩
  intro hze
  cases arts with
  | nil => exact ⟨rfl, rfl⟩
  | cons a rest =>
    rw [analyze_news_entries] at hze
    have hlen := analyzeArticles_length oracle 0 (a :: rest)
    rw [hze] at hlen
    simp at hlen

/-- C8 counterexample: with zero articles (hence zero per-article results)
the overall verdict the caller sees is the no-news string, not the
`"Overall No Upsell Opportunity Indicated."` string the claim names. -/
theorem C8_counterexample :
    (analyze_news oracleOk (some [])).report.individual_analyses = [] ∧
    (analyze_news oracleOk (some [])).report.overall_summary =
      "No relevant news articles found for analysis." ∧
    "No relevant news articles found for analysis." ≠
      "Overall No Upsell Opportunity Indicated." := by decide

/-- C8 witness: the amended theorem applied to the zero-article run: no
aggregate call, no-news verdict. -/
theorem C8_witness :
    (analyze_news oracleOk (some ([] : List Article))).aggregateCalls = [] ∧
    (analyze_news oracleOk
        (some ([] : List Article))).report.overall_summary =
      "No relevant news articles found for analysis." :=
  (C8_zero_results oracleOk []).2.2 (by decide)

/-- C9, confirmed against the spec-modelled cache (the decorator
implementation is external to the repository): a first call on a fresh
cache invokes the computation and stores it; a second call with the same
key within the time-to-live returns the stored value without invoking the
computation (so the two calls invoke it exactly once); a call at or after
expiry invokes it again; and whenever the entry found for a key is older
than the time-to-live, the returned value is a fresh computation, never the
stale entry. -/
theorem C9_cache_ttl {α β : Type} [DecidableEq α] (ttl : Nat)
    (compute : α → β) (key : α) (t0 t1 t2 : Nat)
    (cache : List (α × β × Nat)) (now t : Nat) (v : β) :
    memoize ttl compute [] t0 key =
      (compute key, [(key, compute key, t0)], true) ∧
    (t1 < t0 + ttl →
      memoize ttl compute [(key, compute key, t0)] t1 key =
        (compute key, [(key, compute key, t0)], false)) ∧
    (t0 + ttl ≤ t2 →
      (memoize ttl compute [(key, compute key, t0)] t2 key).2.2 = true) ∧
    (lookupEntry cache key = some (v, t) → t + ttl ≤ now →
      (memoize ttl compute cache now key).1 = compute key ∧
      (memoize ttl compute cache now key).2.2 = true) := by
  refine ⟨rfl, ?_, ?_, ?_⟩
  · intro hlt
    simp [memoize, lookupEntry, hlt]
  · intro hle
    have hnot : ¬ t2 < t0 + ttl := by omega
    simp [memoize, lookupEntry, hnot]
  · intro hl hle
    have hnot : ¬ now < t + ttl := by omega
    simp [memoize, hl, hnot]

/-- C9 witness: the theorem at time-to-live 3600 with concrete times 0, 10
and 3600 and a concrete stale cache entry. -/
theorem C9_witness :
    memoize 3600 (fun n => n + 1) ([] : List (Nat × Nat × Nat)) 0 5 =
      (6, [(5, 6, 0)], true) ∧
    memoize 3600 (fun n => n + 1) [(5, 6, 0)] 10 5 =
      (6, [(5, 6, 0)], false) ∧
    (memoize 3600 (fun n => n + 1) [(5, 6, 0)] 3600 5).2.2 = true ∧
    ((memoize 3600 (fun n => n + 1) [(5, 99, 0)] 3600 5).1 = 6 ∧
      (memoize 3600 (fun n => n + 1) [(5, 99, 0)] 3600 5).2.2 = true) := by
  have h := C9_cache_ttl 3600 (fun n => n + 1) 5 0 10 3600 [(5, 99, 0)]
    3600 0 99
  exact ⟨h.1, h.2.1 (by decide), h.2.2.1 (by decide),
    h.2.2.2 (by decide) (by decide)⟩

/-- C10, confirmed: an exception while fetching makes `fetch_news` return
`None` (discarding anything gathered so far), and `analyze_news` maps both
falsy fetch results — `None` and the empty list — to the identical
empty report with the no-news summary, so at the public interface an
adapter failure is indistinguishable from an absence of news coverage. -/
theorem C10_failure_indistinguishable (adapter : String → SearchOutcome)
    (company : String) (queries : Option (List String)) (m : Nat)
    (allowed : List String) (oracle : Prompt → Except Unit String) :
    (((buildQueries company queries).map adapter).any isErr = true →
      fetch_news adapter company queries m allowed = none) ∧
    analyze_news oracle none = ⟨emptyReport, [], []⟩ ∧
    analyze_news oracle (some []) = ⟨emptyReport, [], []⟩ ∧
    (((buildQueries company queries).map adapter).any isErr = true →
      analyze_news oracle (fetch_news adapter company queries m allowed) =
        analyze_news oracle (some [])) := by
  have hfetch : ((buildQueries company queries).map adapter).any isErr = true →
      fetch_news adapter company queries m allowed = none := by
    intro herr
    unfold fetch_news
    rw [Option.map_eq_none']
    exact (fetchBatches_none_iff m allowed _).mpr herr
  refine ⟨hfetch, rfl, rfl, ?_⟩
  intro herr
  rw [hfetch herr]
  rfl

/-- C10 witness: a run whose only batch raises is reported exactly like a
run that found no articles. -/
theorem C10_witness :
    fetch_news adapterErrB "c" (some ["D"]) 10 [] = none ∧
    analyze_news oracleOk (fetch_news adapterErrB "c" (some ["D"]) 10 []) =
      analyze_news oracleOk (some []) := by
  have h := C10_failure_indistinguishable adapterErrB "c" (some ["D"]) 10 []
    oracleOk
  exact ⟨h.1 (by decide), h.2.2.2 (by decide)⟩
